import Mathlib

/-!
Shallow embedding of the BM25 documentation search engine
(backend/app/services/{text_processor,search_cache,bm25_index,doc_search_service}.py).

Modelling conventions:
* Python strings are modelled as `String` / `List Char` (ASCII corpus assumed;
  `str.lower` is modelled with `Char.toLower`, which lowercases ASCII letters).
* Python floats (scores, weights) are modelled as exact rationals `ℚ`.
* `hashlib.md5(x).hexdigest()` is abstracted away: cache keys and config hashes
  are modelled as the pre-digest strings themselves (md5 is a function of its
  input, so equal inputs give equal digests; distinct inputs are treated as
  giving distinct digests).
* Wall-clock time is threaded explicitly: `datetime.now()` timestamps become a
  `now : Nat` parameter, elapsed-milliseconds measurements become an
  `elapsedMs : ℚ` parameter.
* Exceptions are modelled with `Except String` / `Option`.
-/

attribute [local semireducible] Rat.mul Rat.add Rat.sub Rat.inv Rat.ofScientific

namespace N8nSearch

/-! ## Text processor (text_processor.py)

`re.findall(r'\b[a-zA-Z0-9_-]+\b', text)` is modelled by an explicit scanner:
a word char (for `\b`) is `[a-zA-Z0-9_]`, a class char is `[a-zA-Z0-9_-]`.
-/

def isWordChar (c : Char) : Bool :=
  c.isAlpha || c.isDigit || c = '_'

def isClassChar (c : Char) : Bool :=
  c.isAlpha || c.isDigit || c = '_' || c = '-'

def optIsWord : Option Char → Bool
  | none => false
  | some c => isWordChar c

/-- A regex word boundary between two (optional) adjacent characters. -/
def reBoundary (prev next : Option Char) : Bool :=
  optIsWord prev != optIsWord next

def headIsWord (s : List Char) : Bool :=
  optIsWord s.head?

/-- Maximal leading run of class characters, plus the remainder. -/
def classRun : List Char → List Char × List Char
  | [] => ([], [])
  | c :: cs =>
    if isClassChar c then
      let p := classRun cs
      (c :: p.1, p.2)
    else ([], c :: cs)

/-- Greedy match of `[a-zA-Z0-9_-]+\b` against `run ++ rest`, where `run` is the
maximal class-char run: the longest nonempty prefix of `run` followed by a word
boundary, together with what remains after the token. -/
def tokenAt (run rest : List Char) : Option (List Char × List Char) :=
  (List.range run.length).findSome? fun d =>
    let k := run.length - d
    let t := run.take k
    let u := run.drop k ++ rest
    match t.getLast? with
    | some l => if isWordChar l != headIsWord u then some (t, u) else none
    | none => none

/-- Left-to-right scan of `re.findall(r'\b[a-zA-Z0-9_-]+\b', ·)`.
`fuel` bounds the recursion (every step consumes at least one character). -/
def reFindallAux : Nat → Option Char → List Char → List (List Char)
  | 0, _, _ => []
  | _ + 1, _, [] => []
  | f + 1, prev, c :: cs =>
    if reBoundary prev (some c) && isClassChar c then
      let p := classRun (c :: cs)
      match tokenAt p.1 p.2 with
      | some (tok, u) => tok :: reFindallAux f tok.getLast? u
      | none => reFindallAux f (some c) cs
    else reFindallAux f (some c) cs

def reFindall (s : List Char) : List (List Char) :=
  reFindallAux s.length none s

/-- The fixed stopword set of `TextProcessor._load_stopwords`. -/
def stopwords : List (List Char) :=
  ["a", "an", "and", "are", "as", "at", "be", "by", "for", "from",
   "has", "he", "in", "is", "it", "its", "of", "on", "that", "the",
   "to", "was", "will", "with", "you", "your", "this", "have", "had",
   "what", "when", "where", "who", "which", "why", "how", "can", "could",
   "should", "would", "do", "does", "did", "shall", "may", "might",
   "but", "or", "not", "no", "all", "any", "both", "each", "few", "more",
   "most", "other", "some", "such", "only", "own", "same", "so", "than",
   "too", "very", "just", "now", "also", "here", "there", "then", "they"
  ].map String.data

/-- Model of `TextProcessor._apply_basic_stemming`, per token. -/
def stemToken (t : List Char) : List Char :=
  if "ing".data.isSuffixOf t && decide (5 < t.length) then t.take (t.length - 3)
  else if "ed".data.isSuffixOf t && decide (4 < t.length) then t.take (t.length - 2)
  else if "er".data.isSuffixOf t && decide (4 < t.length) then t.take (t.length - 2)
  else if "est".data.isSuffixOf t && decide (5 < t.length) then t.take (t.length - 3)
  else if "ly".data.isSuffixOf t && decide (4 < t.length) then t.take (t.length - 2)
  else if "s".data.isSuffixOf t && decide (3 < t.length) && !("ss".data.isSuffixOf t) then
    t.take (t.length - 1)
  else t

/-- The `text_processing` section of the search configuration. -/
structure TextConfig where
  lowercase : Bool
  min_word_length : Nat
  max_word_length : Nat
  remove_stopwords : Bool
  enable_stemming : Bool
deriving DecidableEq, Repr

/-- Model of `TextProcessor.preprocess_text` on a character list. -/
def preprocessCore (cfg : TextConfig) (text : List Char) : List (List Char) :=
  if text.isEmpty then []
  else
    let text1 := if cfg.lowercase then text.map Char.toLower else text
    let toks := reFindall text1
    let toks := toks.filter fun t =>
      decide (cfg.min_word_length ≤ t.length) && decide (t.length ≤ cfg.max_word_length)
    let toks := if cfg.remove_stopwords then
        toks.filter fun t => !(stopwords.contains (t.map Char.toLower))
      else toks
    if cfg.enable_stemming then toks.map stemToken else toks

/-- Model of `TextProcessor.preprocess_text`. -/
def preprocess_text (cfg : TextConfig) (text : String) : List String :=
  (preprocessCore cfg text.data).map fun t => String.mk t

end N8nSearch

namespace N8nSearch

/-! ## Highlighting (`TextProcessor.create_highlight`) -/

/-- Model of `str.startswith`: does `s` start with `t`? -/
def startsW : List Char → List Char → Bool
  | [], _ => true
  | _ :: _, [] => false
  | a :: ts, b :: ss => a == b && startsW ts ss

/-- Model of `str.find` (first index of substring `t` in `s`, `none` for Python's `-1`). -/
def strFindCore (t : List Char) : List Char → Option Nat
  | [] => if t.isEmpty then some 0 else none
  | c :: cs =>
    if startsW t (c :: cs) then some 0
    else (strFindCore t cs).map (· + 1)

/-- Case-insensitive single-char match (`re.IGNORECASE`). -/
def lowEq (a b : Char) : Bool := a.toLower == b.toLower

/-- Does `s` start with `t`, case-insensitively? -/
def ciStartsW : List Char → List Char → Bool
  | [], _ => true
  | _ :: _, [] => false
  | a :: ts, b :: ss => lowEq b a && ciStartsW ts ss

/-- One scanning step of `re.sub(rf'\b{re.escape(term)}\b', f'**{term}**', s,
flags=re.IGNORECASE)`: at each position, match `term` case-insensitively with
word boundaries on both sides; on a match emit `**term**` and continue after
the matched characters, otherwise copy one character. `fuel` bounds the
recursion (each step consumes at least one character). -/
def subTermAux (term : List Char) : Nat → Option Char → List Char → List Char
  | 0, _, s => s
  | _ + 1, _, [] => []
  | f + 1, prev, c :: cs =>
    let s := c :: cs
    if !term.isEmpty && ciStartsW term s && reBoundary prev (some c) &&
        reBoundary (s.take term.length).getLast? (s.drop term.length).head? then
      '*' :: '*' :: (term ++ '*' :: '*' ::
        subTermAux term f (s.take term.length).getLast? (s.drop term.length))
    else
      c :: subTermAux term f (some c) cs

def subTermCore (term s : List Char) : List Char :=
  subTermAux term s.length none s

/-- Model of `content[:max_length] + ("..." if len(content) > max_length else "")`. -/
def ellipsisSuffix (content : List Char) (max_length : Nat) : List Char :=
  content.take max_length ++ (if max_length < content.length then "...".data else [])

/-- The `best_pos` loop: the first query term found (case-insensitively) in the
lowered content sets `best_pos = max(0, pos - 50)` and breaks; otherwise 0. -/
def bestPos (terms : List (List Char)) (content_lower : List Char) : Nat :=
  match terms with
  | [] => 0
  | t :: ts =>
    match strFindCore (t.map Char.toLower) content_lower with
    | some pos => pos - 50
    | none => bestPos ts content_lower

/-- Model of `TextProcessor.create_highlight` on character lists. -/
def createHighlightCore (cfg : TextConfig) (content query : List Char)
    (max_length : Nat) : List Char :=
  if content.isEmpty || query.isEmpty then ellipsisSuffix content max_length
  else
    let query_terms := preprocessCore cfg query
    if query_terms.isEmpty then ellipsisSuffix content max_length
    else
      let content_lower := content.map Char.toLower
      let best_pos := bestPos query_terms content_lower
      let snippet := (content.drop best_pos).take max_length
      let snippet := if 0 < best_pos then "...".data ++ snippet else snippet
      let snippet := if best_pos + max_length < content.length then snippet ++ "...".data
        else snippet
      query_terms.foldl (fun snip t => subTermCore t snip) snippet

/-- Model of `TextProcessor.create_highlight` (default `max_length` is 300 in the source). -/
def create_highlight (cfg : TextConfig) (content query : String)
    (max_length : Nat := 300) : String :=
  String.mk (createHighlightCore cfg content.data query.data max_length)

/-! ## Result cache (`search_cache.py`) -/

/-- A single search result (`search_models.SearchResult`). -/
structure SearchResult where
  title : String
  content : String
  url : String
  score : ℚ
  section_type : String
  node_type : Option String
  chunk_index : Nat
  word_count : Nat
  highlight : Option String
deriving DecidableEq, Repr

/-- Statistics for one search call (`search_models.SearchStats`). -/
structure SearchStats where
  query : String
  total_results : Nat
  search_time_ms : ℚ
  results_returned : Nat
  cache_hit : Bool
  index_size : Nat
deriving DecidableEq, Repr

/-- A filter value: the service compares string filters (`section_type`,
`node_type`) and a numeric filter (`min_score`). -/
inductive FVal where
  | s (v : String)
  | q (v : ℚ)
deriving DecidableEq, Repr

/-- A Python filters dict: an insertion-ordered association list. -/
def Filters := List (String × FVal)

instance : DecidableEq Filters := by
  unfold Filters
  infer_instance

/-- Python's `repr` of a string (corpus values assumed quote/escape-free). -/
def pyReprStr (s : String) : String := "\x27" ++ s ++ "\x27"

def pyReprFVal : FVal → String
  | .s v => pyReprStr v
  | .q v => toString v

/-- Python's `str()` of a dict: entries in insertion order.
Float `repr` is abstracted by the rational's `toString`. -/
def pyStrOfDict (fs : List (String × FVal)) : String :=
  "\x7b" ++ String.intercalate ", "
    (fs.map fun p => pyReprStr p.1 ++ ": " ++ pyReprFVal p.2) ++ "\x7d"

/-- Model of `SearchCache._make_key`: the pre-digest string `f"{query}|{top_k}|{filters or {}}"`
(the md5 digest applied to it is abstracted away, see the header). -/
def make_key (query : String) (top_k : Nat) (filters : Option Filters) : String :=
  query ++ "|" ++ toString top_k ++ "|" ++ pyStrOfDict (filters.getD [])

structure CacheEntry where
  key : String
  results : List SearchResult
  ts : Nat
deriving DecidableEq, Repr

/-- Model of `SearchCache` state: the dict is an insertion-ordered entry list. -/
structure SearchCache where
  max_size : Nat
  ttl_seconds : Nat
  cache : List CacheEntry
  hits : Nat
  misses : Nat
deriving DecidableEq, Repr

def lookupEntry (l : List CacheEntry) (k : String) : Option CacheEntry :=
  l.find? fun e => e.key == k

/-- Model of `SearchCache.get`: returns the cached value (or `none`) and the updated
cache state (hit/miss counters, lazy expiry). -/
def SearchCache.get (c : SearchCache) (now : Nat) (query : String) (top_k : Nat)
    (filters : Option Filters) : Option (List SearchResult) × SearchCache :=
  let key := make_key query top_k filters
  match lookupEntry c.cache key with
  | some e =>
    if now - e.ts < c.ttl_seconds then
      (some e.results, { c with hits := c.hits + 1 })
    else
      (none, { c with cache := c.cache.eraseP (fun x => x.key == key),
                      misses := c.misses + 1 })
  | none => (none, { c with misses := c.misses + 1 })

/-- Python dict assignment `cache[key] = v`: update in place if the key exists
(keeping its position), otherwise append. -/
def insertOrUpdate (l : List CacheEntry) (key : String) (results : List SearchResult)
    (ts : Nat) : List CacheEntry :=
  if l.any (fun e => e.key == key) then
    l.map fun e => if e.key == key then ⟨key, results, ts⟩ else e
  else l ++ [⟨key, results, ts⟩]

/-- Model of `min(cache.keys(), key=lambda k: cache[k][1])`: the first entry (in
insertion order) with the minimal timestamp. -/
def oldestEntry : List CacheEntry → Option CacheEntry
  | [] => none
  | e :: es => some (es.foldl (fun best x => if x.ts < best.ts then x else best) e)

/-- Model of `SearchCache.set`. Returns `none` when Python would raise (the `min()` call
on an empty dict, possible only with `max_size = 0`). -/
def SearchCache.set (c : SearchCache) (now : Nat) (query : String) (top_k : Nat)
    (results : List SearchResult) (filters : Option Filters) : Option SearchCache :=
  let key := make_key query top_k filters
  if c.max_size ≤ c.cache.length then
    match oldestEntry c.cache with
    | none => none
    | some old =>
      some { c with cache :=
        insertOrUpdate (c.cache.eraseP (fun e => e.key == old.key)) key results now }
  else
    some { c with cache := insertOrUpdate c.cache key results now }

/-- Model of `SearchCache.clear`. -/
def SearchCache.clear (c : SearchCache) : SearchCache :=
  { c with cache := [], hits := 0, misses := 0 }

end N8nSearch

namespace N8nSearch

/-! ## Index manager (`bm25_index.py`) -/

/-- The `bm25` section of the configuration (`delta` only present for the
`bm25+`/`bm25l` variants). -/
structure Bm25Config where
  variant : String
  k1 : ℚ
  b : ℚ
  delta : Option ℚ
deriving DecidableEq, Repr

/-- The `field_weights` section of the configuration. -/
structure FieldWeights where
  title_weight : ℚ
deriving DecidableEq, Repr

/-- The `search_behavior` section of the configuration. -/
structure SearchBehavior where
  default_top_k : Nat
  max_top_k : Nat
  min_score_threshold : ℚ
  section_type_weights : List (String × ℚ)
  node_type_boost : ℚ
deriving DecidableEq, Repr

/-- The `performance` section of the configuration. -/
structure PerformanceConfig where
  enable_caching : Bool
  cache_size : Nat
  cache_ttl : Nat
deriving DecidableEq, Repr

/-- The `index` section of the configuration. -/
structure IndexConfig where
  auto_rebuild : Bool
  save_index : Bool
  index_file : String
deriving DecidableEq, Repr

/-- The full search configuration surface (`config/search.yaml`, `search` key). -/
structure SearchConfig where
  bm25 : Bm25Config
  text_processing : TextConfig
  field_weights : FieldWeights
  search_behavior : SearchBehavior
  performance : PerformanceConfig
  index : IndexConfig
deriving DecidableEq, Repr

def qstr (s : String) : String := "\x22" ++ s ++ "\x22"

def dumpBool : Bool → String
  | true => "true"
  | false => "false"

/-- Model of `json.dumps` of the `bm25` config dict, `sort_keys=True`
(keys `b < delta < k1 < variant`; `delta` present only when configured). -/
def dumpBm25 (c : Bm25Config) : String :=
  "\x7b" ++ qstr "b" ++ ": " ++ toString c.b ++
    (match c.delta with
     | some d => ", " ++ qstr "delta" ++ ": " ++ toString d
     | none => "") ++
    ", " ++ qstr "k1" ++ ": " ++ toString c.k1 ++
    ", " ++ qstr "variant" ++ ": " ++ qstr c.variant ++ "\x7d"

/-- Model of `json.dumps` of the `text_processing` config dict, `sort_keys=True`. -/
def dumpTextConfig (c : TextConfig) : String :=
  "\x7b" ++ qstr "enable_stemming" ++ ": " ++ dumpBool c.enable_stemming ++
    ", " ++ qstr "lowercase" ++ ": " ++ dumpBool c.lowercase ++
    ", " ++ qstr "max_word_length" ++ ": " ++ toString c.max_word_length ++
    ", " ++ qstr "min_word_length" ++ ": " ++ toString c.min_word_length ++
    ", " ++ qstr "remove_stopwords" ++ ": " ++ dumpBool c.remove_stopwords ++ "\x7d"

def dumpFieldWeights (c : FieldWeights) : String :=
  "\x7b" ++ qstr "title_weight" ++ ": " ++ toString c.title_weight ++ "\x7d"

/-- Model of `BM25IndexManager._get_config_hash`: the pre-digest string of
`json.dumps({'bm25': ..., 'text_processing': ..., 'field_weights': ...}, sort_keys=True)`
(top-level keys in sorted order: `bm25 < field_weights < text_processing`;
the md5 digest of this string is abstracted away, see the header). -/
def config_hash (c : SearchConfig) : String :=
  "\x7b" ++ qstr "bm25" ++ ": " ++ dumpBm25 c.bm25 ++
    ", " ++ qstr "field_weights" ++ ": " ++ dumpFieldWeights c.field_weights ++
    ", " ++ qstr "text_processing" ++ ": " ++ dumpTextConfig c.text_processing ++ "\x7d"

/-- Model of `BM25IndexManager.should_rebuild_index`. File-system state is passed in as
the files' modification times (`none` = the file does not exist). -/
def should_rebuild_index (auto_rebuild : Bool) (index_mtime docs_mtime : Option Nat) :
    Bool :=
  if !auto_rebuild then true
  else
    match index_mtime with
    | none => true
    | some im =>
      match docs_mtime with
      | some dm => decide (im < dm)
      | none => false

/-- A JSON value, for the corpus file. -/
inductive JVal where
  | obj (fields : List (String × JVal))
  | arr (items : List JVal)
  | str (s : String)
  | num (n : ℚ)
  | jbool (b : Bool)
  | null

def jLookup (fields : List (String × JVal)) (k : String) : Option JVal :=
  (fields.find? fun p => p.1 == k).map Prod.snd

/-- Model of `BM25IndexManager.load_documentation`: `none` models a missing corpus file
(`FileNotFoundError`); a present file must be a JSON object with a `sections`
list. -/
def load_documentation (docsFile : Option JVal) : Except String (List JVal) :=
  match docsFile with
  | none => .error "FileNotFoundError: Documentation file not found"
  | some (.obj fields) =>
    match jLookup fields "sections" with
    | some (.arr sections) => .ok sections
    | some _ => .error "Invalid documentation format: sections must be a list"
    | none => .error "Invalid documentation format: missing sections key"
  | some _ => .error "Invalid documentation format: missing sections key"

/-- A corpus document record, as the raw dict the service reads with `.get`
(`none` models an absent key). -/
structure Doc where
  title : Option String
  content : Option String
  url : Option String
  section_type : Option String
  node_type : Option String
  chunk_index : Option Nat
  word_count : Option Nat
deriving DecidableEq, Repr

def emptyDoc : Doc := ⟨none, none, none, none, none, none, none⟩

def jStr? : Option JVal → Option String
  | some (.str s) => some s
  | _ => none

def jNat? : Option JVal → Option Nat
  | some (.num n) => if n.den = 1 ∧ 0 ≤ n.num then some n.num.toNat else none
  | _ => none

/-- Is a JSON value an object (a Python dict)? In `build_index`, the first
non-dict section makes the tokenize loop's `doc.get` call raise
(`AttributeError`). -/
def isObjB : JVal → Bool
  | .obj _ => true
  | _ => false

/-- A section entry viewed as a document record: the fields the service reads
with `.get`. A non-dict section has no `.get` view; it is kept in
`self.documents` as-is by the source, and the model keeps it as the all-absent
record (only these seven fields are ever read from a document). -/
def docView : JVal → Doc
  | .obj fields =>
    { title := jStr? (jLookup fields "title"),
      content := jStr? (jLookup fields "content"),
      url := jStr? (jLookup fields "url"),
      section_type := jStr? (jLookup fields "section_type"),
      node_type := jStr? (jLookup fields "node_type"),
      chunk_index := jNat? (jLookup fields "chunk_index"),
      word_count := jNat? (jLookup fields "word_count") }
  | _ => emptyDoc

/-- Model of the space-join of `[title] * title_weight + [content]` in `build_index`
(`int(...)` truncation of the configured weight modelled by `Rat.floor` for
the non-negative weights in use). -/
def combinedText (title_weight : Nat) (d : Doc) : String :=
  String.intercalate " " (List.replicate title_weight (d.title.getD "") ++ [d.content.getD ""])

/-- The service state (`BM25DocumentationSearch` plus its `BM25IndexManager`).
The external `bm25s` retriever is abstracted as a scoring function that may
raise; `search_count` is the service's query counter. -/
structure BM25Service where
  config : SearchConfig
  documents : List Doc
  document_tokens : List (List String)
  retriever : List String → Except String (List ℚ)
  cache : Option SearchCache
  search_count : Nat

/-- Model of `BM25IndexManager.build_index`, including its mutation order
(persistence omitted: `save_index` failures are swallowed and do not affect
state; the external `bm25s` index construction is abstracted as the scorer
factory `mk`). Returns the raised error, if any, together with the resulting
service state:
* `load_documentation` raises *before* any assignment, so the state is
  unchanged;
* then `self.documents` is replaced and `self.document_tokens` reset, and the
  tokenize loop raises `AttributeError` at the first non-dict section — at
  that point `documents` already holds the new corpus and `document_tokens`
  the tokens appended for the sections before the failing one. -/
def build_index (mk : List (List String) → List String → Except String (List ℚ))
    (svc : BM25Service) (docsFile : Option JVal) : Option String × BM25Service :=
  match load_documentation docsFile with
  | .error e => (some e, svc)
  | .ok sections =>
    let docs := sections.map docView
    let tw : Nat := svc.config.field_weights.title_weight.floor.toNat
    if sections.all isObjB then
      let toks := docs.map fun d =>
        preprocess_text svc.config.text_processing (combinedText tw d)
      (none, { svc with documents := docs, document_tokens := toks,
                        retriever := mk toks })
    else
      (some "AttributeError: section is not a dict",
       { svc with documents := docs,
                  document_tokens := (sections.takeWhile isObjB).map fun s =>
                    preprocess_text svc.config.text_processing
                      (combinedText tw (docView s)) })

/-- Model of `BM25DocumentationSearch.rebuild_index`: builds, clears the cache on
success, and returns a boolean; the `except` clause turns a build failure into
`False`, leaving the service in whatever state the failed build left it (in
particular the cache is not cleared). -/
def rebuild_index (mk : List (List String) → List String → Except String (List ℚ))
    (svc : BM25Service) (docsFile : Option JVal) : Bool × BM25Service :=
  match build_index mk svc docsFile with
  | (none, svc') =>
    match svc'.cache with
    | some c => (true, { svc' with cache := some c.clear })
    | none => (true, svc')
  | (some _, svc') => (false, svc')

end N8nSearch

namespace N8nSearch

/-! ## Search orchestrator (`doc_search_service.py`) -/

/-- Python's `str.strip()` (used only for emptiness testing). -/
def pyStrip (s : List Char) : List Char :=
  ((s.dropWhile Char.isWhitespace).reverse.dropWhile Char.isWhitespace).reverse

/-- Model of `top_k = min(top_k or default_top_k, max_top_k)`. -/
def clampTopK (svc : BM25Service) (tk? : Option Nat) : Nat :=
  min (tk?.getD svc.config.search_behavior.default_top_k)
    svc.config.search_behavior.max_top_k

/-- The stats record of the empty-query and empty-token early returns. -/
def zeroStats (svc : BM25Service) (query : String) (elapsedMs : ℚ) : SearchStats :=
  { query := query, total_results := 0, search_time_ms := elapsedMs,
    results_returned := 0, cache_hit := false, index_size := svc.documents.length }

/-- Model of `weights.get(section_type, 1.0)`. -/
def weightLookup (ws : List (String × ℚ)) (k : String) : ℚ :=
  ((ws.find? fun p => p.1 == k).map Prod.snd).getD 1

/-- Model of `BM25DocumentationSearch._apply_section_weighting`. -/
def apply_section_weighting (svc : BM25Service) (scored : List (Nat × ℚ)) :
    List (Nat × ℚ) :=
  scored.map fun p =>
    let doc := svc.documents.getD p.1 emptyDoc
    (p.1, p.2 * weightLookup svc.config.search_behavior.section_type_weights
      (doc.section_type.getD "general"))

/-- Python's substring test `needle in hay` (on already-lowered strings). -/
def isSubstrCI (needle hay : List Char) : Bool :=
  (strFindCore needle hay).isSome

/-- Model of `BM25DocumentationSearch._apply_node_boost`: boost documents whose truthy
`node_type` occurs (lowercased) as a substring of the lowercased query. -/
def apply_node_boost (svc : BM25Service) (query : String) (scored : List (Nat × ℚ)) :
    List (Nat × ℚ) :=
  let ql := query.data.map Char.toLower
  let boost := svc.config.search_behavior.node_type_boost
  scored.map fun p =>
    let doc := svc.documents.getD p.1 emptyDoc
    match doc.node_type with
    | some nt =>
      if !nt.isEmpty && isSubstrCI (nt.data.map Char.toLower) ql then (p.1, p.2 * boost)
      else (p.1, p.2)
    | none => (p.1, p.2)

def fLookup (fs : Filters) (k : String) : Option FVal :=
  (fs.find? fun p => p.1 == k).map Prod.snd

/-- Model of `doc.get(field) == filters[field]` for the string filters: the dict lookup
has no default, so an absent field is `None` and never equals a string. -/
def optStrEqF (o : Option String) (v : FVal) : Bool :=
  match o, v with
  | some s, .s w => s == w
  | _, _ => false

/-- One document's pass through `_apply_filters`; a non-numeric `min_score`
filter makes Python's `score < filters['min_score']` raise `TypeError`. -/
def filterDoc (svc : BM25Service) (fs : Filters) (p : Nat × ℚ) : Except String Bool :=
  let doc := svc.documents.getD p.1 emptyDoc
  let ok1 := match fLookup fs "section_type" with
    | none => true
    | some v => optStrEqF doc.section_type v
  let ok2 := match fLookup fs "node_type" with
    | none => true
    | some v => optStrEqF doc.node_type v
  match fLookup fs "min_score" with
  | some (.q m) => .ok (ok1 && ok2 && decide (¬ p.2 < m))
  | some (.s _) => .error "TypeError: float and str are not comparable"
  | none => .ok (ok1 && ok2)

/-- Model of `BM25DocumentationSearch._apply_filters`. -/
def apply_filters (svc : BM25Service) (scored : List (Nat × ℚ)) (fs : Filters) :
    Except String (List (Nat × ℚ)) :=
  scored.foldlM (fun acc p => do
    let keep ← filterDoc svc fs p
    pure (if keep then acc ++ [p] else acc)) []

/-- Model of `BM25DocumentationSearch._create_search_result` (highlighting uses the
source's default `max_length` of 300). -/
def create_search_result (svc : BM25Service) (doc_idx : Nat) (score : ℚ)
    (query : String) : SearchResult :=
  let doc := svc.documents.getD doc_idx emptyDoc
  { title := doc.title.getD "Untitled",
    content := doc.content.getD "",
    url := doc.url.getD "",
    score := score,
    section_type := doc.section_type.getD "general",
    node_type := doc.node_type,
    chunk_index := doc.chunk_index.getD 0,
    word_count := doc.word_count.getD 0,
    highlight := if query.isEmpty then none
      else some (create_highlight svc.config.text_processing (doc.content.getD "") query) }

/-- Stable insertion step for the descending-by-score sort. -/
def insertByScore (a : Nat × ℚ) : List (Nat × ℚ) → List (Nat × ℚ)
  | [] => [a]
  | y :: ys => if y.2 ≤ a.2 then a :: y :: ys else y :: insertByScore a ys

/-- Model of `scored_docs.sort(key=lambda x: x[1], reverse=True)`: Python's sort is
stable, and a stable descending sort is unique, so a stable insertion sort
models it exactly. -/
def sortByScoreDesc : List (Nat × ℚ) → List (Nat × ℚ)
  | [] => []
  | a :: rest => insertByScore a (sortByScoreDesc rest)

/-- The score-shaping stages of the `try:` block: positive-score filter,
minimum-score threshold, section weighting, node boosting, and (for truthy
filters) `_apply_filters`. -/
def pipelineScores (svc : BM25Service) (query : String) (filters : Option Filters)
    (doc_scores : List ℚ) : Except String (List (Nat × ℚ)) :=
  let scored := doc_scores.enum.filter fun p => decide (0 < p.2)
  let scored := scored.filter fun p =>
    decide (svc.config.search_behavior.min_score_threshold ≤ p.2)
  let scored := apply_section_weighting svc scored
  let scored := apply_node_boost svc query scored
  match filters with
  | some fs => if fs.isEmpty then pure scored else apply_filters svc scored fs
  | none => pure scored

/-- Sort descending, truncate to `top_k`, and build the `SearchResult`s. -/
def topResults (svc : BM25Service) (query : String) (top_k : Nat)
    (include_highlights : Bool) (scored : List (Nat × ℚ)) : List SearchResult :=
  ((sortByScoreDesc scored).take top_k).map fun p =>
    create_search_result svc p.1 p.2 (if include_highlights then query else "")

/-- The `try:` block of `search` (scoring through cache store). Returns the
truncated results, the pre-truncation count, and the updated service. -/
def trySearch (svc : BM25Service) (now : Nat) (query : String) (top_k : Nat)
    (filters : Option Filters) (include_highlights : Bool)
    (query_tokens : List String) : Except String (List SearchResult × Nat × BM25Service) := do
  let doc_scores ← svc.retriever query_tokens
  let scored ← pipelineScores svc query filters doc_scores
  let total := (sortByScoreDesc scored).length
  let results := topResults svc query top_k include_highlights scored
  match svc.cache with
  | some c =>
    match c.set now query top_k results filters with
    | some c' => .ok (results, total,
        { svc with cache := some c', search_count := svc.search_count + 1 })
    | none => .error "ValueError: min() arg is an empty sequence"
  | none => .ok (results, total, { svc with search_count := svc.search_count + 1 })

/-- Model of `search` after the cache check: tokenization, scoring, and the
`except Exception` boundary that turns any scoring failure into an empty
result set with zeroed stats. -/
def searchMain (svc : BM25Service) (now : Nat) (elapsedMs : ℚ) (query : String)
    (top_k : Nat) (filters : Option Filters) (include_highlights : Bool) :
    (List SearchResult × SearchStats) × BM25Service :=
  let query_tokens := preprocess_text svc.config.text_processing query
  if query_tokens.isEmpty then
    (([], zeroStats svc query elapsedMs), svc)
  else
    match trySearch svc now query top_k filters include_highlights query_tokens with
    | .ok (results, total, svc') =>
      ((results, { query := query, total_results := total, search_time_ms := elapsedMs,
                   results_returned := results.length, cache_hit := false,
                   index_size := svc'.documents.length }), svc')
    | .error _ =>
      (([], { query := query, total_results := 0, search_time_ms := elapsedMs,
              results_returned := 0, cache_hit := false,
              index_size := svc.documents.length }), svc)

/-- Model of `BM25DocumentationSearch.search`: empty-query rejection, `top_k` clamping,
cache lookup (a cached value is used only when truthy, i.e. a nonempty list),
then the scoring pipeline. -/
def search (svc : BM25Service) (now : Nat) (elapsedMs : ℚ) (query : String)
    (tk? : Option Nat) (filters : Option Filters) (include_highlights : Bool) :
    (List SearchResult × SearchStats) × BM25Service :=
  if (pyStrip query.data).isEmpty then
    (([], zeroStats svc query 0), svc)
  else
    let top_k := clampTopK svc tk?
    match svc.cache with
    | some c =>
      let p := c.get now query top_k filters
      let svc1 := { svc with cache := some p.2 }
      match p.1 with
      | some cached =>
        if cached.isEmpty then
          searchMain svc1 now elapsedMs query top_k filters include_highlights
        else
          ((cached, { query := query, total_results := cached.length,
                      search_time_ms := elapsedMs, results_returned := cached.length,
                      cache_hit := true, index_size := svc1.documents.length }), svc1)
      | none => searchMain svc1 now elapsedMs query top_k filters include_highlights
    | none => searchMain svc now elapsedMs query top_k filters include_highlights

/-- The cache's hit counter, as observed on the service. -/
def cacheHits (svc : BM25Service) : Nat :=
  match svc.cache with
  | some c => c.hits
  | none => 0

end N8nSearch

namespace N8nSearch

/-! ## Example fixtures (used by witnesses and counterexamples) -/

def exTextCfg : TextConfig :=
  { lowercase := true, min_word_length := 3, max_word_length := 30,
    remove_stopwords := true, enable_stemming := false }

def exConfig : SearchConfig :=
  { bm25 := { variant := "lucene", k1 := 3/2, b := 3/4, delta := none },
    text_processing := exTextCfg,
    field_weights := { title_weight := 2 },
    search_behavior := { default_top_k := 5, max_top_k := 10, min_score_threshold := 0,
                         section_type_weights := [("integration", 3/2)],
                         node_type_boost := 2 },
    performance := { enable_caching := true, cache_size := 100, cache_ttl := 3600 },
    index := { auto_rebuild := true, save_index := false, index_file := "bm25_index.pkl" } }

def exDocA : Doc :=
  { title := some "Slack Node", content := some "send a message to slack channel",
    url := some "https://docs/slack", section_type := some "integration",
    node_type := some "Slack", chunk_index := some 0, word_count := some 6 }

def exDocB : Doc :=
  { title := some "Email Node", content := some "send an email",
    url := some "https://docs/email", section_type := some "integration",
    node_type := some "Email", chunk_index := some 0, word_count := some 3 }

def exCache : SearchCache :=
  { max_size := 100, ttl_seconds := 3600, cache := [], hits := 0, misses := 0 }

/-- A small, fully concrete service instance over a two-document corpus. -/
def exSvc : BM25Service :=
  { config := exConfig,
    documents := [exDocA, exDocB],
    document_tokens := [preprocess_text exTextCfg "Slack Node Slack Node send a message to slack channel",
                        preprocess_text exTextCfg "Email Node Email Node send an email"],
    retriever := fun toks => .ok (if toks.contains "slack" then [5, 1] else [2, 2]),
    cache := some exCache,
    search_count := 0 }

end N8nSearch

namespace N8nSearch

/-! ## Claims -/

/-- C7: `should_rebuild_index` returns true exactly when rebuild-on-every-load
is configured (`auto_rebuild = false`), or no persisted snapshot file exists, or
the corpus source file exists and its modification time is strictly newer than
the snapshot file's; otherwise it returns false. -/
theorem C7_should_rebuild_iff (a : Bool) (i d : Option Nat) :
    should_rebuild_index a i d = true ↔
      a = false ∨ i = none ∨ ∃ im dm, i = some im ∧ d = some dm ∧ im < dm := by
  cases a <;> cases i <;> cases d <;> simp [should_rebuild_index]

/-- C9: With minimum word length 3, stopword removal enabled, lowercasing
enabled and stemming disabled (and any maximum word length of at least 5, so
that `"quick"` survives the length filter), tokenizing `"the a quick fox"`
yields exactly `["quick", "fox"]`. -/
theorem C9_tokenize_the_a_quick_fox (M : Nat) (hM : 5 ≤ M) :
    preprocess_text ⟨true, 3, M, true, false⟩ "the a quick fox" = ["quick", "fox"] := by
  have h3 : 3 ≤ M := by omega
  have step : preprocessCore ⟨true, 3, M, true, false⟩ "the a quick fox".data =
      List.filter (fun t => !(stopwords.contains (t.map Char.toLower)))
        (List.filter (fun t => decide (3 ≤ t.length) && decide (t.length ≤ M))
          [['t','h','e'], ['a'], ['q','u','i','c','k'], ['f','o','x']]) := rfl
  unfold preprocess_text
  rw [step]
  simp [h3, hM, stopwords]

/-- Witness for C9 at the concrete maximum word length 30. -/
theorem C9_witness :
    5 ≤ 30 ∧ preprocess_text ⟨true, 3, 30, true, false⟩ "the a quick fox" = ["quick", "fox"] :=
  ⟨by decide, C9_tokenize_the_a_quick_fox 30 (by decide)⟩

/-- Model of `exConfig` with a different `field_weights` group and everything else equal. -/
def exConfigFW3 : SearchConfig := { exConfig with field_weights := { title_weight := 3 } }

/-- C5 counterexample: Two configurations that agree on the BM25 group and
the text-processing group but differ in `field_weights` produce different
config hashes, refuting "the hash is over the ranking parameters and
text-processing options only, regardless of any other configuration values". -/
theorem C5_counterexample :
    exConfig.bm25 = exConfigFW3.bm25 ∧
    exConfig.text_processing = exConfigFW3.text_processing ∧
    config_hash exConfig ≠ config_hash exConfigFW3 := by
  refine ⟨rfl, rfl, ?_⟩
  decide

/-- C5 amended: `_get_config_hash` is a stable digest over the BM25
parameters, the text-processing options, *and* the `field_weights` group: two
configurations agreeing on these three groups yield equal hashes regardless of
all other configuration values (and independent of corpus content, which the
hash never reads). -/
theorem C5_config_hash_depends_only_on_three_groups (c1 c2 : SearchConfig)
    (hb : c1.bm25 = c2.bm25) (ht : c1.text_processing = c2.text_processing)
    (hf : c1.field_weights = c2.field_weights) :
    config_hash c1 = config_hash c2 := by
  unfold config_hash
  rw [hb, ht, hf]

/-- Model of `exConfig` with a different `performance` group (a non-hashed group). -/
def exConfigPerf : SearchConfig :=
  { exConfig with performance := { enable_caching := false, cache_size := 1, cache_ttl := 1 } }

/-- Witness for the amended C5: configs differing only in the performance group
hash identically. -/
theorem C5_witness :
    config_hash exConfig = config_hash exConfigPerf :=
  C5_config_hash_depends_only_on_three_groups exConfig exConfigPerf rfl rfl rfl

/-- C6 counterexample: The cache key serializes the filters dict in
insertion order (`str(filters)`), so the same key-value pairs in a different
order produce a *different* cache key, refuting order-independence. -/
theorem C6_counterexample :
    make_key "q" 5 (some [("a", .s "x"), ("b", .s "y")]) ≠
      make_key "q" 5 (some [("b", .s "y"), ("a", .s "x")]) := by
  decide

/-- C6 amended: The cache key is a digest over the normalized query, the
limit, and Python's `str()` of the filters dict, which depends on the dict's
insertion order; only the `None`-filters and empty-mapping cases are canonical:
they always produce the same key. -/
theorem C6_none_and_empty_filters_same_key (q : String) (k : Nat) :
    make_key q k none = make_key q k (some []) := rfl

/-- C4 counterexample: With a missing corpus file the build fails, yet
`rebuild_index` returns normally with `False` — the corpus/build error is
absorbed, not propagated to the caller. Moreover, on a corpus whose sections
list holds a non-dict entry, the build raises after `self.documents` was
already replaced, so `rebuild_index` returns `False` with *changed* state. -/
theorem C4_counterexample :
    (∃ e, build_index (fun _ _ => .ok []) exSvc none = (some e, exSvc)) ∧
    rebuild_index (fun _ _ => .ok []) exSvc none = (false, exSvc) ∧
    (rebuild_index (fun _ _ => .ok []) exSvc
        (some (.obj [("sections", .arr [.num 42])]))).1 = false ∧
    (rebuild_index (fun _ _ => .ok []) exSvc
        (some (.obj [("sections", .arr [.num 42])]))).2.documents = [emptyDoc] :=
  ⟨⟨"FileNotFoundError: Documentation file not found", rfl⟩, rfl, rfl, rfl⟩

/-- C4 amended: When a build triggered through the explicit rebuild call
fails (e.g., the corpus file is missing or its top-level shape is not an object
containing a sections array), the error does not propagate to the caller of
`rebuild_index`: it is absorbed, and `rebuild_index` returns `False` with the
service in whatever state the failed build left it. -/
theorem C4_rebuild_absorbs_build_errors
    (mk : List (List String) → List String → Except String (List ℚ))
    (svc : BM25Service) (docsFile : Option JVal) (e : String) (svc' : BM25Service)
    (h : build_index mk svc docsFile = (some e, svc')) :
    rebuild_index mk svc docsFile = (false, svc') := by
  unfold rebuild_index
  rw [h]

/-- Witness for the amended C4 at a concrete failing input (missing corpus file). -/
theorem C4_witness :
    rebuild_index (fun _ _ => .ok []) exSvc none = (false, exSvc) :=
  C4_rebuild_absorbs_build_errors (fun _ _ => .ok []) exSvc none
    "FileNotFoundError: Documentation file not found" exSvc rfl

end N8nSearch

namespace N8nSearch

/-! ### C8: cache capacity invariant -/

lemma foldlMin_spec (es : List CacheEntry) (a : CacheEntry) :
    (es.foldl (fun best x => if x.ts < best.ts then x else best) a = a ∨
      es.foldl (fun best x => if x.ts < best.ts then x else best) a ∈ es) ∧
    (es.foldl (fun best x => if x.ts < best.ts then x else best) a).ts ≤ a.ts ∧
    ∀ x ∈ es, (es.foldl (fun best x => if x.ts < best.ts then x else best) a).ts ≤ x.ts := by
  induction es generalizing a with
  | nil => simp
  | cons b bs ih =>
    simp only [List.foldl_cons]
    by_cases hb : b.ts < a.ts
    · simp only [if_pos hb]
      obtain ⟨hmem, hle, hall⟩ := ih b
      refine ⟨?_, ?_, ?_⟩
      · rcases hmem with h1 | h1
        · exact Or.inr (by rw [h1]; exact List.mem_cons_self b bs)
        · exact Or.inr (List.mem_cons_of_mem b h1)
      · omega
      · intro x hx
        rcases List.mem_cons.mp hx with h1 | h1
        · subst h1; exact hle
        · exact hall x h1
    · simp only [if_neg hb]
      obtain ⟨hmem, hle, hall⟩ := ih a
      refine ⟨?_, hle, ?_⟩
      · rcases hmem with h1 | h1
        · exact Or.inl h1
        · exact Or.inr (List.mem_cons_of_mem b h1)
      · intro x hx
        rcases List.mem_cons.mp hx with h1 | h1
        · subst h1; omega
        · exact hall x h1

/-- Model of `min(cache.keys(), key=timestamp)` returns a member with minimal timestamp. -/
lemma oldestEntry_mem_min (l : List CacheEntry) (e : CacheEntry)
    (h : oldestEntry l = some e) : e ∈ l ∧ ∀ x ∈ l, e.ts ≤ x.ts := by
  cases l with
  | nil => simp [oldestEntry] at h
  | cons a as =>
    simp only [oldestEntry, Option.some_inj] at h
    obtain ⟨hmem, hle, hall⟩ := foldlMin_spec as a
    subst h
    constructor
    · rcases hmem with h1 | h1
      · exact (by rw [h1]; exact List.mem_cons_self a as)
      · exact List.mem_cons_of_mem a h1
    · intro x hx
      rcases List.mem_cons.mp hx with h1 | h1
      · subst h1; exact hle
      · exact hall x h1

lemma length_insertOrUpdate (l : List CacheEntry) (k : String)
    (r : List SearchResult) (t : Nat) :
    (insertOrUpdate l k r t).length ≤ l.length + 1 := by
  unfold insertOrUpdate
  split
  · simp
  · simp

lemma oldestEntry_isSome (l : List CacheEntry) (h : l ≠ []) :
    ∃ e, oldestEntry l = some e := by
  cases l with
  | nil => exact absurd rfl h
  | cons a as => exact ⟨_, rfl⟩

lemma length_erasePLe (p : CacheEntry → Bool) (l : List CacheEntry) :
    (l.eraseP p).length ≤ l.length := by
  induction l with
  | nil => simp
  | cons a l ih =>
    by_cases h : p a
    · simp [List.eraseP_cons, h]
    · simp [List.eraseP_cons, h]
      omega

/-- C8: The cache never holds more than `max_size` entries: `set` preserves
the bound; on a `set` made while at (nonzero) capacity exactly one entry — one
with the oldest insertion timestamp — is evicted before the new entry is
inserted; and `get`/`clear` never increase the entry count. -/
theorem C8_cache_capacity (c : SearchCache) (now : Nat) (q : String) (k : Nat)
    (r : List SearchResult) (f : Option Filters)
    (hinv : c.cache.length ≤ c.max_size) :
    (∀ c', c.set now q k r f = some c' → c'.cache.length ≤ c.max_size) ∧
    (c.cache.length = c.max_size → 0 < c.max_size →
      ∃ ev, ev ∈ c.cache ∧ (∀ x ∈ c.cache, ev.ts ≤ x.ts) ∧
        (c.cache.eraseP (fun x => x.key == ev.key)).length = c.cache.length - 1 ∧
        c.set now q k r f = some { c with cache :=
          (insertOrUpdate (c.cache.eraseP (fun x => x.key == ev.key))
            (make_key q k f) r now) }) ∧
    (c.get now q k f).2.cache.length ≤ c.cache.length ∧
    (SearchCache.clear c).cache.length = 0 := by
  refine ⟨?_, ?_, ?_, rfl⟩
  · intro c' hc'
    unfold SearchCache.set at hc'
    split at hc'
    · rename_i hcap
      cases hold : oldestEntry c.cache with
      | none => rw [hold] at hc'; exact absurd hc' (by simp)
      | some old =>
        rw [hold] at hc'
        obtain ⟨hmem, _⟩ := oldestEntry_mem_min c.cache old hold
        have herase : (c.cache.eraseP (fun x => x.key == old.key)).length + 1 =
            c.cache.length :=
          List.length_eraseP_add_one hmem (by simp)
        have hlen := length_insertOrUpdate
          (c.cache.eraseP (fun x => x.key == old.key)) (make_key q k f) r now
        simp only [Option.some_inj] at hc'
        subst hc'
        simp only
        omega
    · simp only [Option.some_inj] at hc'
      subst hc'
      have hlen := length_insertOrUpdate c.cache (make_key q k f) r now
      simp only
      omega
  · intro hfull hpos
    have hne : c.cache ≠ [] := by
      intro h0
      rw [h0] at hfull
      simp at hfull
      omega
    obtain ⟨ev, hev⟩ := oldestEntry_isSome c.cache hne
    obtain ⟨hmem, hmin⟩ := oldestEntry_mem_min c.cache ev hev
    refine ⟨ev, hmem, hmin, ?_, ?_⟩
    · have := List.length_eraseP_add_one (p := fun x => x.key == ev.key) hmem (by simp)
      omega
    · unfold SearchCache.set
      rw [if_pos (le_of_eq hfull.symm), hev]
  · simp only [SearchCache.get]
    cases hl : lookupEntry c.cache (make_key q k f) with
    | none => simp [hl]
    | some e =>
      simp only [hl]
      split
      · simp
      · simpa using length_erasePLe (fun x => x.key == make_key q k f) c.cache

/-- A concrete cache at capacity, for the C8 witness. -/
def exCacheFull : SearchCache :=
  { max_size := 2, ttl_seconds := 3600,
    cache := [⟨"k1", [], 5⟩, ⟨"k2", [], 3⟩], hits := 0, misses := 0 }

/-- Witness for C8 at a concrete cache state. -/
theorem C8_witness :
    (exCacheFull.get 10 "q" 5 none).2.cache.length ≤ exCacheFull.cache.length ∧
    (SearchCache.clear exCacheFull).cache.length = 0 :=
  ⟨(C8_cache_capacity exCacheFull 10 "q" 5 [] none (by decide)).2.2.1,
   (C8_cache_capacity exCacheFull 10 "q" 5 [] none (by decide)).2.2.2⟩

end N8nSearch

namespace N8nSearch

/-! ### C3: scoring failures are absorbed at the orchestrator boundary -/

/-- When the retriever raises, the whole `try:` block fails with that error. -/
lemma trySearch_error (svc : BM25Service) (now : Nat) (query : String) (tk : Nat)
    (fs : Option Filters) (ih : Bool) (toks : List String) (err : String)
    (herr : svc.retriever toks = .error err) :
    trySearch svc now query tk fs ih toks = .error err := by
  unfold trySearch
  rw [herr]
  rfl

/-- When tokens are nonempty and the retriever raises, `searchMain` returns the
empty, zeroed stats record and an unchanged service. -/
lemma searchMain_error (svc : BM25Service) (now : Nat) (e : ℚ) (query : String)
    (tk : Nat) (fs : Option Filters) (ih : Bool) (err : String)
    (htok : (preprocess_text svc.config.text_processing query).isEmpty = false)
    (herr : svc.retriever (preprocess_text svc.config.text_processing query) = .error err) :
    searchMain svc now e query tk fs ih =
      (([], { query := query, total_results := 0, search_time_ms := e,
              results_returned := 0, cache_hit := false,
              index_size := svc.documents.length }), svc) := by
  have htry := trySearch_error svc now query tk fs ih
    (preprocess_text svc.config.text_processing query) err herr
  simp only [searchMain, htok, Bool.false_eq_true, if_false, htry]

/-- C3: For every query that reaches the scoring stage (nonempty after
strip, nonzero tokens, no truthy cache hit), an exception raised during scoring
is caught at the orchestrator boundary: `search` returns an empty result list
and a stats record with `total_results = 0` and `results_returned = 0` (and,
the model being total, no exception ever propagates to the caller). -/
theorem C3_scoring_errors_absorbed (svc : BM25Service) (now : Nat) (e : ℚ)
    (query : String) (tk? : Option Nat) (fs : Option Filters) (ih : Bool) (err : String)
    (hq : (pyStrip query.data).isEmpty = false)
    (htok : (preprocess_text svc.config.text_processing query).isEmpty = false)
    (herr : svc.retriever (preprocess_text svc.config.text_processing query) = .error err)
    (hmiss : ∀ c, svc.cache = some c →
      ((c.get now query (clampTopK svc tk?) fs).1.getD []) = []) :
    ∃ s svc', search svc now e query tk? fs ih = (([], s), svc') ∧
      s.total_results = 0 ∧ s.results_returned = 0 := by
  simp only [search, hq, Bool.false_eq_true, if_false]
  cases hc : svc.cache with
  | none =>
    exact ⟨_, _, searchMain_error svc now e query (clampTopK svc tk?) fs ih err htok herr,
      rfl, rfl⟩
  | some c =>
    have hm := hmiss c hc
    cases hval : (c.get now query (clampTopK svc tk?) fs).1 with
    | none =>
      simp only [hval]
      exact ⟨_, _, searchMain_error _ now e query (clampTopK svc tk?) fs ih err htok herr,
        rfl, rfl⟩
    | some cached =>
      rw [hval] at hm
      simp only [Option.getD_some] at hm
      subst hm
      simp only [hval, List.isEmpty_nil, if_true]
      exact ⟨_, _, searchMain_error _ now e query (clampTopK svc tk?) fs ih err htok herr,
        rfl, rfl⟩

/-- A concrete service whose retriever always raises, for the C3 witness. -/
def exSvcErr : BM25Service :=
  { exSvc with cache := none, retriever := fun _ => .error "boom" }

/-- Witness for C3 at a concrete service and query. -/
theorem C3_witness :
    ∃ s svc', search exSvcErr 10 0 "send slack" none none false = (([], s), svc') ∧
      s.total_results = 0 ∧ s.results_returned = 0 :=
  C3_scoring_errors_absorbed exSvcErr 10 0 "send slack" none none false "boom"
    (by decide) (by decide) rfl
    (by intro c hc; simp [exSvcErr, exSvc] at hc)

end N8nSearch

namespace N8nSearch

/-! ### C1: cache round-trip for nonempty results -/

lemma exceptBind_ok {ε α β : Type} (a : α) (f : α → Except ε β) :
    (Bind.bind (Except.ok a) f : Except ε β) = f a := rfl

lemma exceptBind_error {ε α β : Type} (e : ε) (f : α → Except ε β) :
    (Bind.bind (Except.error e) f : Except ε β) = Except.error e := rfl

/-- The cache state after a miss-then-store round on an initially empty cache:
one entry, the miss counter bumped. -/
def cachedOne (c0 : SearchCache) (key : String) (r : List SearchResult) (ts : Nat) :
    SearchCache :=
  { max_size := c0.max_size, ttl_seconds := c0.ttl_seconds,
    cache := [⟨key, r, ts⟩], hits := c0.hits, misses := c0.misses + 1 }

/-- Model of `get` on an empty cache misses and only bumps the miss counter. -/
lemma get_empty_cache (c0 : SearchCache) (now : Nat) (q : String) (k : Nat)
    (fs : Option Filters) (hempty : c0.cache = []) :
    c0.get now q k fs = (none, { c0 with misses := c0.misses + 1 }) := by
  unfold SearchCache.get lookupEntry
  rw [hempty]
  rfl

/-- Forward evaluation of `searchMain` when every stage succeeds. -/
lemma searchMain_ok (svc : BM25Service) (c : SearchCache) (now : Nat) (e : ℚ)
    (q : String) (tk : Nat) (fs : Option Filters) (ih : Bool)
    (scores : List ℚ) (scored : List (Nat × ℚ)) (c' : SearchCache)
    (hcache : svc.cache = some c)
    (htok : (preprocess_text svc.config.text_processing q).isEmpty = false)
    (hrt : svc.retriever (preprocess_text svc.config.text_processing q) = .ok scores)
    (hF : pipelineScores svc q fs scores = .ok scored)
    (hset : c.set now q tk (topResults svc q tk ih scored) fs = some c') :
    searchMain svc now e q tk fs ih =
      ((topResults svc q tk ih scored,
        { query := q, total_results := (sortByScoreDesc scored).length,
          search_time_ms := e,
          results_returned := (topResults svc q tk ih scored).length,
          cache_hit := false, index_size := svc.documents.length }),
       { svc with cache := some c', search_count := svc.search_count + 1 }) := by
  unfold searchMain trySearch
  rw [if_neg (by simp [htok])]
  rw [hrt, exceptBind_ok]
  try dsimp only
  rw [hF, exceptBind_ok]
  try dsimp only
  rw [hcache]
  try dsimp only
  rw [hset]

/-- Complete case analysis of one `search` call on a service whose cache is
enabled and empty: either the result list is empty, or the call went through
the whole pipeline and the returned results were stored in the cache under the
clamped key with the current timestamp, with only the miss counter bumped. -/
lemma search_empty_cache_cases (svc : BM25Service) (c0 : SearchCache) (now : Nat)
    (e : ℚ) (q : String) (tk : Option Nat) (fs : Option Filters) (ih : Bool)
    (hcache : svc.cache = some c0) (hempty : c0.cache = []) :
    (search svc now e q tk fs ih).1.1 = [] ∨
    ((pyStrip q.data).isEmpty = false ∧
      ∃ r s, search svc now e q tk fs ih = ((r, s),
        { svc with
            cache := some (cachedOne c0 (make_key q (clampTopK svc tk) fs) r now),
            search_count := svc.search_count + 1 })) := by
  unfold search
  by_cases hq : (pyStrip q.data).isEmpty = true
  · left
    rw [if_pos hq]
  · rw [if_neg hq, hcache]
    dsimp only
    rw [get_empty_cache c0 now q (clampTopK svc tk) fs hempty]
    dsimp only
    by_cases htok :
        (preprocess_text svc.config.text_processing q).isEmpty = true
    · left
      unfold searchMain
      dsimp only
      rw [if_pos htok]
    · cases hrt : svc.retriever (preprocess_text svc.config.text_processing q) with
      | error err =>
        left
        unfold searchMain trySearch
        dsimp only
        rw [if_neg htok, hrt, exceptBind_error]
      | ok scores =>
        cases hF : pipelineScores
            { svc with cache := some { c0 with misses := c0.misses + 1 } } q fs scores with
        | error err =>
          left
          unfold searchMain trySearch
          dsimp only
          rw [if_neg htok, hrt, exceptBind_ok]
          try dsimp only
          rw [hF, exceptBind_error]
        | ok scored =>
          rcases Nat.eq_zero_or_pos c0.max_size with hms | hms
          · left
            have hset : SearchCache.set { c0 with misses := c0.misses + 1 } now q
                (clampTopK svc tk)
                (topResults { svc with cache := some { c0 with misses := c0.misses + 1 } }
                  q (clampTopK svc tk) ih scored) fs = none := by
              unfold SearchCache.set
              rw [show ({ c0 with misses := c0.misses + 1 } : SearchCache).cache = []
                from hempty]
              rw [if_pos (by simp [hms])]
              rfl
            unfold searchMain trySearch
            dsimp only
            rw [if_neg htok, hrt, exceptBind_ok]
            try dsimp only
            rw [hF, exceptBind_ok]
            try dsimp only
            rw [hset]
          · have hset : SearchCache.set { c0 with misses := c0.misses + 1 } now q
                (clampTopK svc tk)
                (topResults { svc with cache := some { c0 with misses := c0.misses + 1 } }
                  q (clampTopK svc tk) ih scored) fs =
                some (cachedOne c0 (make_key q (clampTopK svc tk) fs)
                  (topResults { svc with cache := some { c0 with misses := c0.misses + 1 } }
                    q (clampTopK svc tk) ih scored) now) := by
              unfold SearchCache.set
              rw [show ({ c0 with misses := c0.misses + 1 } : SearchCache).cache = []
                from hempty]
              rw [if_neg (by simp; omega)]
              rfl
            right
            refine ⟨by simpa using hq,
              topResults { svc with cache := some { c0 with misses := c0.misses + 1 } }
                q (clampTopK svc tk) ih scored,
              { query := q,
                total_results := (sortByScoreDesc scored).length,
                search_time_ms := e,
                results_returned :=
                  (topResults { svc with cache := some { c0 with misses := c0.misses + 1 } }
                    q (clampTopK svc tk) ih scored).length,
                cache_hit := false,
                index_size := svc.documents.length }, ?_⟩
            exact searchMain_ok
              { svc with cache := some { c0 with misses := c0.misses + 1 } }
              { c0 with misses := c0.misses + 1 } now e q (clampTopK svc tk) fs ih
              scores scored _ rfl (by simpa using htok) hrt hF hset

end N8nSearch

namespace N8nSearch

/-- Model of `get` on a single-entry cache holding the looked-up key, within the TTL:
a hit returning the stored results, bumping only the hit counter. -/
lemma get_single_hit (c0 : SearchCache) (now1 now2 : Nat) (q : String) (k : Nat)
    (fs : Option Filters) (r1 : List SearchResult)
    (httl : now2 - now1 < c0.ttl_seconds) :
    (cachedOne c0 (make_key q k fs) r1 now1).get now2 q k fs =
      (some r1, { max_size := c0.max_size, ttl_seconds := c0.ttl_seconds,
                  cache := [⟨make_key q k fs, r1, now1⟩],
                  hits := c0.hits + 1, misses := c0.misses + 1 }) := by
  unfold SearchCache.get lookupEntry cachedOne
  dsimp only
  rw [List.find?_cons_of_pos _ (by simp)]
  dsimp only
  rw [if_pos httl]

/-- C1: For every non-empty query whose first search call (on a service
with caching enabled and an empty cache) returns a non-empty result list, an
immediately following search call with the same query, `top_k` and filters,
within the TTL, returns exactly the same result list, reports
`cache_hit = true` in its stats, and increments the cache's hit counter by
exactly 1. -/
theorem C1_cache_hit_roundtrip
    (svc : BM25Service) (c0 : SearchCache) (now1 now2 : Nat) (e1 e2 : ℚ)
    (q : String) (tk : Option Nat) (fs : Option Filters) (ih : Bool)
    (r1 : List SearchResult) (s1 : SearchStats) (svc1 : BM25Service)
    (hcache : svc.cache = some c0) (hempty : c0.cache = [])
    (h1 : search svc now1 e1 q tk fs ih = ((r1, s1), svc1))
    (hne : r1 ≠ [])
    (httl : now2 - now1 < c0.ttl_seconds) :
    ∃ s2 svc2, search svc1 now2 e2 q tk fs ih = ((r1, s2), svc2) ∧
      s2.cache_hit = true ∧ cacheHits svc2 = cacheHits svc1 + 1 := by
  rcases search_empty_cache_cases svc c0 now1 e1 q tk fs ih hcache hempty with
    h | ⟨hq, r, s, heq⟩
  · rw [h1] at h
    exact absurd h hne
  · rw [h1] at heq
    have hr : r1 = r := by
      have h2 := congrArg (fun x => x.1.1) heq
      simpa using h2
    subst hr
    have hsvc : svc1 = { svc with
        cache := some (cachedOne c0 (make_key q (clampTopK svc tk) fs) r1 now1),
        search_count := svc.search_count + 1 } := by
      have h2 := congrArg (fun x => x.2) heq
      simpa using h2
    subst hsvc
    have hne' : r1.isEmpty = false := by
      cases r1 with
      | nil => exact absurd rfl hne
      | cons a l => rfl
    unfold search
    rw [if_neg (by simp [hq])]
    dsimp only
    rw [show clampTopK { svc with
        cache := some (cachedOne c0 (make_key q (clampTopK svc tk) fs) r1 now1),
        search_count := svc.search_count + 1 } tk = clampTopK svc tk from rfl]
    rw [get_single_hit c0 now1 now2 q (clampTopK svc tk) fs r1 httl]
    dsimp only
    rw [if_neg (by simp [hne'])]
    exact ⟨_, _, rfl, rfl, rfl⟩

/-- Witness for C1: the concrete two-document service, query `"send slack"`. -/
theorem C1_witness :
    ∃ s2 svc2,
      search (search exSvc 10 0 "send slack" (some 1) none false).2 11 0
          "send slack" (some 1) none false =
        (((search exSvc 10 0 "send slack" (some 1) none false).1.1, s2), svc2) ∧
      s2.cache_hit = true ∧
      cacheHits svc2 = cacheHits (search exSvc 10 0 "send slack" (some 1) none false).2 + 1 :=
  C1_cache_hit_roundtrip exSvc exCache 10 11 0 0 "send slack" (some 1) none false
    (search exSvc 10 0 "send slack" (some 1) none false).1.1
    (search exSvc 10 0 "send slack" (some 1) none false).1.2
    (search exSvc 10 0 "send slack" (some 1) none false).2
    rfl rfl rfl (by decide) (by decide)

end N8nSearch

namespace N8nSearch

/-! ### C2: cached empty result lists never count as hits -/

/-- If no document scores positively, the whole score pipeline yields `[]`
(filters never raise on an empty list). -/
lemma pipelineScores_empty (svc : BM25Service) (q : String) (fs : Option Filters)
    (scores : List ℚ) (hpos : scores.enum.filter (fun p => decide (0 < p.2)) = []) :
    pipelineScores svc q fs scores = .ok [] := by
  unfold pipelineScores
  rw [hpos]
  cases fs with
  | none => rfl
  | some l =>
    cases hl : l.isEmpty with
    | true =>
      simp only [hl]
      rfl
    | false =>
      simp only [hl, Bool.false_eq_true, if_false]
      rfl

/-- Sorting, truncating and mapping an empty score list yields no results. -/
lemma topResults_nil (svc : BM25Service) (q : String) (k : Nat) (ih : Bool) :
    topResults svc q k ih [] = [] := by
  unfold topResults sortByScoreDesc
  simp

/-- Model of `set` on a one-entry cache whose entry has the same key: the entry is
replaced (in either the eviction or the update path), leaving one entry with
the new results and timestamp. -/
lemma set_single_same_key (c : SearchCache) (now2 : Nat) (q : String) (k : Nat)
    (fs : Option Filters) (r0 r : List SearchResult) (t0 : Nat)
    (hc : c.cache = [⟨make_key q k fs, r0, t0⟩]) :
    c.set now2 q k r fs = some { c with cache := [⟨make_key q k fs, r, now2⟩] } := by
  unfold SearchCache.set
  rw [hc]
  by_cases hm : c.max_size ≤ 1
  · rw [if_pos (by simpa using hm)]
    dsimp only [oldestEntry, List.foldl_nil]
    simp [insertOrUpdate, List.eraseP_cons]
  · rw [if_neg (by simpa using hm)]
    simp [insertOrUpdate]

/-- C2: For every query that reaches the scoring stage and scores no
document positively (so the pipeline produces an empty result list), the empty
list is stored in the cache, yet an immediately following identical call
within the TTL reports `cache_hit = false` and re-runs the full scoring
pipeline (the service's search counter increments again), while the cache's
internal hit counter is nevertheless incremented — the orchestrator tests the
cached value for truthiness and an empty list is falsy. -/
theorem C2_cached_empty_list_never_hits
    (svc : BM25Service) (c0 : SearchCache) (now1 now2 : Nat) (e1 e2 : ℚ)
    (q : String) (tk : Option Nat) (fs : Option Filters) (ih : Bool)
    (scores : List ℚ)
    (hcache : svc.cache = some c0) (hempty : c0.cache = []) (hmax : 0 < c0.max_size)
    (hq : (pyStrip q.data).isEmpty = false)
    (htok : (preprocess_text svc.config.text_processing q).isEmpty = false)
    (hrt : svc.retriever (preprocess_text svc.config.text_processing q) = .ok scores)
    (hpos : scores.enum.filter (fun p => decide (0 < p.2)) = [])
    (httl : now2 - now1 < c0.ttl_seconds) :
    ∃ s1 svc1 c1 s2 svc2,
      search svc now1 e1 q tk fs ih = (([], s1), svc1) ∧
      svc1.cache = some c1 ∧
      c1.cache = [⟨make_key q (clampTopK svc tk) fs, [], now1⟩] ∧
      search svc1 now2 e2 q tk fs ih = (([], s2), svc2) ∧
      s2.cache_hit = false ∧
      cacheHits svc2 = cacheHits svc1 + 1 ∧
      svc2.search_count = svc1.search_count + 1 := by
  have hset1 : SearchCache.set { c0 with misses := c0.misses + 1 } now1 q
      (clampTopK svc tk)
      (topResults { svc with cache := some { c0 with misses := c0.misses + 1 } }
        q (clampTopK svc tk) ih []) fs =
      some (cachedOne c0 (make_key q (clampTopK svc tk) fs) [] now1) := by
    unfold SearchCache.set
    rw [show ({ c0 with misses := c0.misses + 1 } : SearchCache).cache = [] from hempty]
    rw [if_neg (by simp; omega), topResults_nil]
    rfl
  have h1 : search svc now1 e1 q tk fs ih =
      (([], { query := q, total_results := 0, search_time_ms := e1,
              results_returned := 0, cache_hit := false,
              index_size := svc.documents.length }),
       { svc with
           cache := some (cachedOne c0 (make_key q (clampTopK svc tk) fs) [] now1),
           search_count := svc.search_count + 1 }) := by
    unfold search
    rw [if_neg (by simp [hq]), hcache]
    dsimp only
    rw [get_empty_cache c0 now1 q (clampTopK svc tk) fs hempty]
    dsimp only
    rw [searchMain_ok
      { svc with cache := some { c0 with misses := c0.misses + 1 } }
      { c0 with misses := c0.misses + 1 } now1 e1 q (clampTopK svc tk) fs ih
      scores [] (cachedOne c0 (make_key q (clampTopK svc tk) fs) [] now1)
      rfl htok hrt
      (pipelineScores_empty _ q fs scores hpos) hset1]
    rw [topResults_nil]
    rfl
  have hset2 : SearchCache.set
      { max_size := c0.max_size, ttl_seconds := c0.ttl_seconds,
        cache := [⟨make_key q (clampTopK svc tk) fs, [], now1⟩],
        hits := c0.hits + 1, misses := c0.misses + 1 } now2 q (clampTopK svc tk)
      (topResults { svc with
          cache := some { max_size := c0.max_size, ttl_seconds := c0.ttl_seconds,
                          cache := [⟨make_key q (clampTopK svc tk) fs, [], now1⟩],
                          hits := c0.hits + 1, misses := c0.misses + 1 },
          search_count := svc.search_count + 1 }
        q (clampTopK svc tk) ih []) fs =
      some { max_size := c0.max_size, ttl_seconds := c0.ttl_seconds,
             cache := [⟨make_key q (clampTopK svc tk) fs, [], now2⟩],
             hits := c0.hits + 1, misses := c0.misses + 1 } := by
    rw [topResults_nil]
    exact set_single_same_key _ now2 q (clampTopK svc tk) fs [] [] now1 rfl
  have h2 : search { svc with
        cache := some (cachedOne c0 (make_key q (clampTopK svc tk) fs) [] now1),
        search_count := svc.search_count + 1 } now2 e2 q tk fs ih =
      (([], { query := q, total_results := 0, search_time_ms := e2,
              results_returned := 0, cache_hit := false,
              index_size := svc.documents.length }),
       { svc with
           cache := some { max_size := c0.max_size, ttl_seconds := c0.ttl_seconds,
                           cache := [⟨make_key q (clampTopK svc tk) fs, [], now2⟩],
                           hits := c0.hits + 1, misses := c0.misses + 1 },
           search_count := svc.search_count + 2 }) := by
    unfold search
    rw [if_neg (by simp [hq])]
    dsimp only
    rw [show clampTopK { svc with
        cache := some (cachedOne c0 (make_key q (clampTopK svc tk) fs) [] now1),
        search_count := svc.search_count + 1 } tk = clampTopK svc tk from rfl]
    rw [get_single_hit c0 now1 now2 q (clampTopK svc tk) fs [] httl]
    dsimp only
    rw [if_pos (show List.isEmpty ([] : List SearchResult) = true from rfl)]
    rw [searchMain_ok
      { svc with
          cache := some { max_size := c0.max_size, ttl_seconds := c0.ttl_seconds,
                          cache := [⟨make_key q (clampTopK svc tk) fs, [], now1⟩],
                          hits := c0.hits + 1, misses := c0.misses + 1 },
          search_count := svc.search_count + 1 }
      { max_size := c0.max_size, ttl_seconds := c0.ttl_seconds,
        cache := [⟨make_key q (clampTopK svc tk) fs, [], now1⟩],
        hits := c0.hits + 1, misses := c0.misses + 1 } now2 e2 q (clampTopK svc tk)
      fs ih scores []
      { max_size := c0.max_size, ttl_seconds := c0.ttl_seconds,
        cache := [⟨make_key q (clampTopK svc tk) fs, [], now2⟩],
        hits := c0.hits + 1, misses := c0.misses + 1 }
      rfl htok hrt (pipelineScores_empty _ q fs scores hpos) hset2]
    rw [topResults_nil]
    rfl
  exact ⟨_, _, cachedOne c0 (make_key q (clampTopK svc tk) fs) [] now1, _, _,
    h1, rfl, rfl, h2, rfl, rfl, rfl⟩

/-- A concrete service whose retriever scores every document 0. -/
def exSvcZero : BM25Service := { exSvc with retriever := fun _ => .ok [0, 0] }

/-- Witness for C2 at a concrete service and query. -/
theorem C2_witness :
    ∃ s1 svc1 c1 s2 svc2,
      search exSvcZero 10 0 "send slack" (some 1) none false = (([], s1), svc1) ∧
      svc1.cache = some c1 ∧
      c1.cache = [⟨make_key "send slack" (clampTopK exSvcZero (some 1)) none, [], 10⟩] ∧
      search svc1 11 0 "send slack" (some 1) none false = (([], s2), svc2) ∧
      s2.cache_hit = false ∧
      cacheHits svc2 = cacheHits svc1 + 1 ∧
      svc2.search_count = svc1.search_count + 1 :=
  C2_cached_empty_list_never_hits exSvcZero exCache 10 11 0 0 "send slack" (some 1)
    none false [0, 0] rfl rfl (by decide) (by decide) (by decide) rfl (by decide)
    (by decide)

end N8nSearch

namespace N8nSearch

/-! ### C10: highlight with no matching query term -/

lemma toNat_Char_ofNat_valid (n : Nat) (h : n.isValidChar) :
    (Char.ofNat n).toNat = n := by
  unfold Char.ofNat
  rw [dif_pos h]
  rfl

/-- A lowercased class character (`[a-zA-Z0-9_-]`) is never a dot. -/
lemma classChar_toLower_ne_dot (c : Char) (hc : isClassChar c = true) :
    c.toLower ≠ '.' := by
  intro h
  unfold Char.toLower at h
  by_cases hb : c.toNat ≥ 65 ∧ c.toNat ≤ 90
  · rw [if_pos hb] at h
    have hv : (c.toNat + 32).isValidChar := Or.inl (by omega)
    have h1 : (Char.ofNat (c.toNat + 32)).toNat = c.toNat + 32 :=
      toNat_Char_ofNat_valid _ hv
    rw [h] at h1
    have h2 : ('.' : Char).toNat = 46 := rfl
    omega
  · rw [if_neg hb] at h
    subst h
    exact absurd hc (by decide)

lemma lowEq_dot_false (c : Char) (hc : isClassChar c = true) :
    lowEq '.' c = false := by
  unfold lowEq
  have h1 : ('.' : Char).toLower = '.' := rfl
  rw [h1]
  exact beq_eq_false_iff_ne.mpr fun he => classChar_toLower_ne_dot c hc he.symm

lemma beq_char_comm (x y : Char) : (x == y) = (y == x) := by
  by_cases h : x = y
  · subst h; rfl
  · have h1 : (x == y) = false := beq_eq_false_iff_ne.mpr h
    have h2 : (y == x) = false := beq_eq_false_iff_ne.mpr (Ne.symm h)
    rw [h1, h2]

/-- Case-insensitive matching is exact matching of the lowered strings. -/
lemma ciStartsW_eq (t : List Char) : ∀ s : List Char,
    ciStartsW t s = startsW (t.map Char.toLower) (s.map Char.toLower) := by
  induction t with
  | nil => intro s; rfl
  | cons a ts ih =>
    intro s
    cases s with
    | nil => rfl
    | cons b ss =>
      show (lowEq b a && ciStartsW ts ss) = _
      rw [ih ss]
      show _ = ((a.toLower == b.toLower) && _)
      unfold lowEq
      rw [beq_char_comm]

/-- Model of `find` returning no index means the needle starts at no suffix. -/
lemma strFindCore_none (t : List Char) : ∀ s : List Char,
    strFindCore t s = none → ∀ n, startsW t (s.drop n) = false := by
  intro s
  induction s with
  | nil =>
    intro h n
    rw [List.drop_nil]
    unfold strFindCore at h
    by_cases ht : t.isEmpty
    · rw [if_pos ht] at h
      cases h
    · cases t with
      | nil => simp at ht
      | cons a ts => rfl
  | cons c cs ih =>
    intro h n
    unfold strFindCore at h
    by_cases hs : startsW t (c :: cs) = true
    · rw [if_pos hs] at h
      cases h
    · rw [if_neg hs] at h
      have h' : strFindCore t cs = none := by
        cases hsf : strFindCore t cs with
        | none => rfl
        | some m => rw [hsf] at h; cases h
      cases n with
      | zero =>
        simpa using hs
      | succ n =>
        simpa using ih h' n

/-- Matching a prefix of `y` entails matching `y`. -/
lemma ciStartsW_take (t : List Char) : ∀ (y : List Char) (k : Nat),
    ciStartsW t (y.take k) = true → ciStartsW t y = true := by
  induction t with
  | nil => intro y k _; rfl
  | cons a ts ih =>
    intro y k h
    cases y with
    | nil => rw [List.take_nil] at h; cases h
    | cons b ys =>
      cases k with
      | zero => cases h
      | succ k =>
        rw [List.take_succ_cons] at h
        have h1 : lowEq b a = true ∧ ciStartsW ts (ys.take k) = true := by
          simpa [ciStartsW] using h
        have h2 := ih ys k h1.2
        show (lowEq b a && ciStartsW ts ys) = true
        rw [h1.1, h2]
        rfl

/-- Appending dots cannot create a match for a dot-free term. -/
lemma ciStartsW_append_dots (t : List Char) (hnod : ∀ c ∈ t, lowEq '.' c = false) :
    ∀ (x d : List Char), (∀ c ∈ d, c = '.') →
      ciStartsW t (x ++ d) = true → ciStartsW t x = true := by
  induction t with
  | nil => intro x d _ _; rfl
  | cons a ts ih =>
    intro x d hd h
    cases x with
    | nil =>
      cases d with
      | nil => cases h
      | cons e es =>
        have he : e = '.' := hd e (List.mem_cons_self e es)
        have h1 : lowEq e a = false := by
          rw [he]
          exact hnod a (List.mem_cons_self a ts)
        rw [List.nil_append] at h
        have : (lowEq e a && ciStartsW ts es) = true := h
        rw [h1] at this
        cases this
    | cons b xs =>
      rw [List.cons_append] at h
      have h1 : lowEq b a = true ∧ ciStartsW ts (xs ++ d) = true := by
        simpa [ciStartsW] using h
      have h2 := ih (fun c hc => hnod c (List.mem_cons_of_mem a hc)) xs d hd h1.2
      show (lowEq b a && ciStartsW ts xs) = true
      rw [h1.1, h2]
      rfl

/-- If the term matches at no position of `s`, the word-boundary substitution
leaves `s` unchanged. -/
lemma subTermAux_id (term : List Char) : ∀ (fuel : Nat) (prev : Option Char)
    (s : List Char), (∀ n, ciStartsW term (s.drop n) = false) →
    subTermAux term fuel prev s = s := by
  intro fuel
  induction fuel with
  | zero => intro prev s _; rfl
  | succ f ih =>
    intro prev s h
    cases s with
    | nil => rfl
    | cons c cs =>
      unfold subTermAux
      have h0 : ciStartsW term (c :: cs) = false := by simpa using h 0
      rw [if_neg (by simp [h0])]
      have := ih (some c) cs (fun n => by simpa using h (n + 1))
      rw [this]

end N8nSearch

namespace N8nSearch

/-- All characters of a class-char run are class chars. -/
lemma classRun_chars : ∀ (s : List Char), ∀ c ∈ (classRun s).1, isClassChar c = true := by
  intro s
  induction s with
  | nil => intro c hc; cases hc
  | cons a as ih =>
    intro c hc
    unfold classRun at hc
    by_cases ha : isClassChar a
    · rw [if_pos ha] at hc
      rcases List.mem_cons.mp hc with h | h
      · subst h; exact ha
      · exact ih c h
    · rw [if_neg ha] at hc
      cases hc

/-- A token produced by the greedy boundary matcher is a prefix of the run. -/
lemma tokenAt_take (run rest tok u : List Char) (h : tokenAt run rest = some (tok, u)) :
    ∃ k, tok = run.take k := by
  unfold tokenAt at h
  obtain ⟨d, _, hd⟩ := List.exists_of_findSome?_eq_some h
  dsimp only at hd
  cases hlast : (run.take (run.length - d)).getLast? with
  | none => rw [hlast] at hd; cases hd
  | some l =>
    rw [hlast] at hd
    dsimp only at hd
    by_cases hb : (isWordChar l != headIsWord (run.drop (run.length - d) ++ rest)) = true
    · rw [if_pos hb] at hd
      exact ⟨run.length - d, by cases hd; rfl⟩
    · rw [if_neg hb] at hd
      cases hd

/-- Every token the findall scanner emits consists of class characters. -/
lemma reFindallAux_chars : ∀ (fuel : Nat) (prev : Option Char) (s : List Char),
    ∀ t ∈ reFindallAux fuel prev s, ∀ c ∈ t, isClassChar c = true := by
  intro fuel
  induction fuel with
  | zero => intro prev s t ht; cases ht
  | succ f ih =>
    intro prev s t ht
    cases s with
    | nil => cases ht
    | cons a as =>
      unfold reFindallAux at ht
      by_cases hb : (reBoundary prev (some a) && isClassChar a) = true
      · rw [if_pos hb] at ht
        dsimp only at ht
        cases htok : tokenAt (classRun (a :: as)).1 (classRun (a :: as)).2 with
        | none =>
          rw [htok] at ht
          exact ih (some a) as t ht
        | some p =>
          obtain ⟨tok, u⟩ := p
          rw [htok] at ht
          rcases List.mem_cons.mp ht with h | h
          · subst h
            obtain ⟨k, hk⟩ := tokenAt_take _ _ _ _ htok
            intro c hc
            rw [hk] at hc
            exact classRun_chars (a :: as) c (List.mem_of_mem_take hc)
          · exact ih tok.getLast? u t h
      · rw [if_neg hb] at ht
        exact ih (some a) as t ht

/-- Stemming only removes a suffix: its characters come from the input token. -/
lemma stemToken_sub (t : List Char) (c : Char) (h : c ∈ stemToken t) : c ∈ t := by
  unfold stemToken at h
  repeat' split at h
  all_goals first
    | exact List.mem_of_mem_take h
    | exact h

/-- Every token `preprocess_text` produces consists of class characters. -/
lemma preprocessCore_chars (cfg : TextConfig) (x : List Char) (t : List Char)
    (ht : t ∈ preprocessCore cfg x) : ∀ c ∈ t, isClassChar c = true := by
  unfold preprocessCore at ht
  by_cases hx : x.isEmpty
  · rw [if_pos hx] at ht
    cases ht
  · rw [if_neg hx] at ht
    dsimp only at ht
    by_cases hstem : cfg.enable_stemming
    · rw [if_pos hstem] at ht
      obtain ⟨t', ht', rfl⟩ := List.mem_map.mp ht
      intro c hc
      have hc' := stemToken_sub t' c hc
      by_cases hsw : cfg.remove_stopwords
      · rw [if_pos hsw] at ht'
        have h1 := List.mem_of_mem_filter ht'
        have h2 := List.mem_of_mem_filter h1
        exact reFindallAux_chars _ none _ t' h2 c hc'
      · rw [if_neg hsw] at ht'
        have h1 := List.mem_of_mem_filter ht'
        exact reFindallAux_chars _ none _ t' h1 c hc'
    · rw [if_neg hstem] at ht
      by_cases hsw : cfg.remove_stopwords
      · rw [if_pos hsw] at ht
        have h1 := List.mem_of_mem_filter ht
        have h2 := List.mem_of_mem_filter h1
        exact reFindallAux_chars _ none _ t h2
      · rw [if_neg hsw] at ht
        have h1 := List.mem_of_mem_filter ht
        exact reFindallAux_chars _ none _ t h1

/-- If no term is found in the lowered content, `best_pos` stays 0. -/
lemma bestPos_zero (terms : List (List Char)) (cl : List Char)
    (h : ∀ t ∈ terms, strFindCore (t.map Char.toLower) cl = none) :
    bestPos terms cl = 0 := by
  induction terms with
  | nil => rfl
  | cons t ts ih =>
    unfold bestPos
    rw [h t (List.mem_cons_self t ts)]
    exact ih fun t' ht' => h t' (List.mem_cons_of_mem t ht')

/-- If every term's substitution is the identity, so is the whole fold. -/
lemma foldl_subTerm_id (terms : List (List Char)) (S : List Char)
    (h : ∀ t ∈ terms, subTermCore t S = S) :
    terms.foldl (fun snip t => subTermCore t snip) S = S := by
  induction terms with
  | nil => rfl
  | cons t ts ih =>
    rw [List.foldl_cons, h t (List.mem_cons_self t ts)]
    exact ih fun t' ht' => h t' (List.mem_cons_of_mem t ht')

/-- In the snippet (a prefix of the content, possibly with a dot-ellipsis
appended), a class-char term absent from the content matches nowhere. -/
lemma no_ci_in_snippet (t content d : List Char) (m : Nat)
    (hclass : ∀ c ∈ t, isClassChar c = true)
    (hd : ∀ c ∈ d, c = '.')
    (hfind : strFindCore (t.map Char.toLower) (content.map Char.toLower) = none) :
    ∀ n, ciStartsW t ((content.take m ++ d).drop n) = false := by
  intro n
  by_contra hcon
  have hc : ciStartsW t ((content.take m ++ d).drop n) = true := by
    simpa using hcon
  rw [List.drop_append_eq_append_drop] at hc
  have hd' : ∀ c ∈ d.drop (n - (content.take m).length), c = '.' :=
    fun c hcm => hd c (List.mem_of_mem_drop hcm)
  have hnod : ∀ c ∈ t, lowEq '.' c = false :=
    fun c hct => lowEq_dot_false c (hclass c hct)
  have h3 := ciStartsW_append_dots t hnod _ _ hd' hc
  rw [List.drop_take] at h3
  have h4 := ciStartsW_take t (content.drop n) (m - n) h3
  rw [ciStartsW_eq, List.map_drop] at h4
  have h5 := strFindCore_none (t.map Char.toLower) (content.map Char.toLower) hfind n
  rw [h4] at h5
  cases h5

end N8nSearch

namespace N8nSearch

/-- C10 amended: For every content and query such that no tokenized query
term occurs in the content (case-insensitively), `create_highlight` returns
the raw prefix `content[:maxLen]` with no emphasis markers, but with `"..."`
appended exactly when the content is longer than `maxLen` (the code appends a
trailing ellipsis whenever `best_pos + max_length < len(content)`, even when
nothing matched). -/
theorem C10_no_match_raw_head (cfg : TextConfig) (content query : String) (m : Nat)
    (hno : ∀ t ∈ preprocessCore cfg query.data,
      strFindCore (t.map Char.toLower) (content.data.map Char.toLower) = none) :
    create_highlight cfg content query m =
      String.mk (content.data.take m ++
        (if m < content.data.length then "...".data else [])) := by
  unfold create_highlight createHighlightCore
  by_cases h1 : (content.data.isEmpty || query.data.isEmpty) = true
  · rw [if_pos h1]
    rfl
  · rw [if_neg h1]
    by_cases h2 : (preprocessCore cfg query.data).isEmpty = true
    · rw [if_pos h2]
      rfl
    · rw [if_neg h2]
      dsimp only
      rw [bestPos_zero _ _ (fun t ht => hno t ht)]
      rw [if_neg (by omega : ¬ (0:Nat) < 0)]
      simp only [Nat.zero_add, List.drop_zero]
      by_cases hlen : m < content.data.length
      · simp only [if_pos hlen]
        rw [foldl_subTerm_id _ _ ?h]
        case h =>
          intro t ht
          unfold subTermCore
          exact subTermAux_id t _ none _
            (no_ci_in_snippet t content.data "...".data m
              (preprocessCore_chars cfg query.data t ht)
              (by intro c hc; simpa using hc)
              (hno t ht))
      · simp only [if_neg hlen]
        rw [foldl_subTerm_id _ _ ?h, List.append_nil]
        case h =>
          intro t ht
          unfold subTermCore
          have hid := no_ci_in_snippet t content.data [] m
            (preprocessCore_chars cfg query.data t ht)
            (fun c hc => by cases hc)
            (hno t ht)
          simp only [List.append_nil] at hid
          exact subTermAux_id t _ none _ hid

/-- C10 counterexample: Content of 10 characters, `maxLen = 5`, query
`"quick"`: no query term occurs in the content, the claim's hypotheses hold,
yet `create_highlight` appends `"..."` — it does not return the raw prefix
unmodified. -/
theorem C10_counterexample :
    (∀ t ∈ preprocessCore exTextCfg "quick".data,
      strFindCore (t.map Char.toLower) ("aaaaaaaaaa".data.map Char.toLower) = none) ∧
    create_highlight exTextCfg "aaaaaaaaaa" "quick" 5 = "aaaaa..." ∧
    create_highlight exTextCfg "aaaaaaaaaa" "quick" 5 ≠
      String.mk ("aaaaaaaaaa".data.take 5) := by
  refine ⟨by decide, by decide, by decide⟩

/-- Witness for the amended C10 at concrete inputs. -/
theorem C10_witness :
    create_highlight exTextCfg "aaaaaaaaaa" "quick" 5 =
      String.mk ("aaaaaaaaaa".data.take 5 ++
        (if 5 < "aaaaaaaaaa".data.length then "...".data else [])) :=
  C10_no_match_raw_head exTextCfg "aaaaaaaaaa" "quick" 5 (by decide)

end N8nSearch
